import Mathlib

/-!
Shallow embedding of the two source files of this repository:

* `src/sentry/static/sentry/app/views/eventsV2/table/tableView.tsx` —
  the Discover v2 result-table view (column drag preview and commit,
  update/move telemetry, header-cell alignment, body-cell rendering).
* the organization rate-limit settings page (`getRateLimitValues`,
  the two `RangeField` label formatters).

JavaScript arrays are modelled as `List`, JS objects that may lack a key as
`Option`-valued functions, and machine numbers as `Nat`/`Int` (all the numbers
involved are small non-negative integers or the width sentinel). External
collaborators that are imported by the source but are not part of this
repository (`explodeField`, `getFieldRenderer`, `getExpandedResults`,
`getAggregateAlias`, `EventView` methods) are passed as opaque function
parameters, so every theorem quantifies over every possible behaviour of the
collaborator.
-/

/-- A table column as seen by the drag-reorder code of `tableView.tsx`:
the `isDragging` flag that `generateColumnOrder` sets, plus an opaque payload
`data` standing for every other field of `TableColumn` (key, name, aggregation,
field, width, type, eventViewField), all of which the reorder code copies
unchanged through the object spread. -/
structure TableColumn (α : Type) where
  data : α
  isDragging : Bool
deriving Repr, DecidableEq

/-- The column with its `isDragging` flag set, i.e. the object spread
`\x7b...col, isDragging: true\x7d` from the source. -/
def setDragging {α : Type} (c : TableColumn α) : TableColumn α :=
  { c with isDragging := true }

/-- JS `arr.splice(i, 1)[0]`: the removed element, `none` when `i` is past the
end (JS would yield `undefined`). -/
def spliceRemovedOne {α : Type} (l : List α) (i : Nat) : Option α :=
  l[i]?

/-- The array state after JS `arr.splice(i, 1)`. -/
def spliceRemoveOne {α : Type} (l : List α) (i : Nat) : List α :=
  l.eraseIdx i

/-- The array state after JS `arr.splice(i, 0, x)`: `x` inserted at index `i`,
with `i` clamped to the array length as `splice` does. -/
def spliceInsertAt {α : Type} (l : List α) (i : Nat) (x : α) : List α :=
  l.insertIdx (min i l.length) x

/-- State-passing form of `generateColumnOrder` from `tableView.tsx`.

The first component is the function's return value; the second is the state,
after the call, of the array that `eventView.getColumns()` returned (the
"base" array). The source mutates that array in place in the
source-equals-destination branch (`columnOrder[destinationColumnIndex] = ...`)
but copies it (`[...columnOrder]`) before splicing in the distinct-index
branch, so only the equal-index branch changes the second component.

In-place index assignment and the `\x7b...col, isDragging: true\x7d` spread is
`List.modify setDragging`; the claims only exercise in-range indices, where
this coincides with the JS behaviour (out of range, JS would lengthen the
array). -/
def generateColumnOrderSt {α : Type} (columnOrder : List (TableColumn α))
    (initialColumnIndex destinationColumnIndex : Option Nat) :
    List (TableColumn α) × List (TableColumn α) :=
  match destinationColumnIndex, initialColumnIndex with
  | some dest, some init =>
    if dest = init then
      let mutated := List.modify setDragging dest columnOrder
      (mutated, mutated)
    else
      let nextColumnOrder := columnOrder
      let removed := spliceRemovedOne nextColumnOrder init
      let afterRemove := spliceRemoveOne nextColumnOrder init
      let afterInsert :=
        match removed with
        | some c => spliceInsertAt afterRemove dest c
        | none => afterRemove
      (List.modify setDragging dest afterInsert, columnOrder)
  | _, _ => (columnOrder, columnOrder)

/-- `generateColumnOrder` from `tableView.tsx`: the value returned to the
caller (the preview column order handed to `GridEditable`). -/
def generateColumnOrder {α : Type} (columnOrder : List (TableColumn α))
    (initialColumnIndex destinationColumnIndex : Option Nat) :
    List (TableColumn α) :=
  (generateColumnOrderSt columnOrder initialColumnIndex destinationColumnIndex).1

/-- The record returned by the external `explodeField` collaborator
(imported from `../utils`, not part of this repository): the aggregation,
field and width components of one field of an `EventView`. Width is `Int` so
that the `COL_WIDTH_UNDEFINED` sentinel (a negative constant) fits. -/
structure ExplodedField where
  aggregation : String
  field : String
  width : Int
deriving Repr, DecidableEq

/-- The `changed` list built by `_updateColumn` in `tableView.tsx`: one push
per component-wise difference between the exploded pre-update and post-update
fields, in source order aggregate, field, width. -/
def updateColumnChanged (prevField nextField : ExplodedField) : List String :=
  (if prevField.aggregation ≠ nextField.aggregation then ["aggregate"] else []) ++
  (if prevField.field ≠ nextField.field then ["field"] else []) ++
  (if prevField.width ≠ nextField.width then ["width"] else [])

/-- The telemetry event of `_updateColumn` that the claims inspect: the index
and the `changed` list (the remaining payload fields are copied verbatim from
the arguments and carry no logic). -/
structure UpdateColumnEvent where
  updated_at_index : Nat
  changed : List String
deriving Repr, DecidableEq

/-- The telemetry part of `_updateColumn` in `tableView.tsx`. `EV` is the
opaque `EventView` descriptor type; `eventView.withUpdatedColumn` is an
external collaborator, so its result `nextEventView` is a parameter, as are
the exploded pre/post fields `prevField` and `nextField` (in the source,
`explodeField` applied to the field at `columnIndex` of each descriptor).
The source guards the `trackAnalyticsEvent` call with
`nextEventView !== eventView`; identity of the immutable descriptor is
modelled as equality on `EV`. Returns the emitted event, or `none` when no
event is emitted. -/
def updateColumnEvent {EV : Type} [DecidableEq EV] (eventView nextEventView : EV)
    (prevField nextField : ExplodedField) (columnIndex : Nat) :
    Option UpdateColumnEvent :=
  if nextEventView ≠ eventView then
    some { updated_at_index := columnIndex,
           changed := updateColumnChanged prevField nextField }
  else
    none

/-- The telemetry event of `_moveColumnCommit` in `tableView.tsx`: source and
destination index plus the moved column's exploded aggregation and field. -/
structure MoveColumnEvent where
  from_index : Nat
  to_index : Nat
  aggregation : String
  field : String
deriving Repr, DecidableEq

/-- The telemetry part of `_moveColumnCommit` in `tableView.tsx`:
`explodeField(eventView.fields[fromIndex])` supplies the aggregation and
field recorded in the move event. `explodeField` is the external collaborator
passed as a parameter, `fields` is `eventView.fields`; callers only pass
in-range `fromIndex`, modelled by `List.getD` with an empty-string default. -/
def moveColumnCommit (explodeField : String → ExplodedField)
    (fields : List String) (fromIndex toIndex : Nat) : MoveColumnEvent :=
  let prevField := explodeField (fields.getD fromIndex "")
  { from_index := fromIndex, to_index := toIndex,
    aggregation := prevField.aggregation, field := prevField.field }

/-- The `onDragDone` callback wired to `DraggableColumns` in
`TableView.render`: it invokes `_moveColumnCommit` exactly when both indices
are numbers and they differ; otherwise it does nothing (no descriptor change,
no event). The result is the move event of the commit, or `none` when no
commit happens. -/
def onDragDone (explodeField : String → ExplodedField) (fields : List String)
    (draggingColumnIndex destinationColumnIndex : Option Nat) :
    Option MoveColumnEvent :=
  match draggingColumnIndex, destinationColumnIndex with
  | some d, some t =>
    if d ≠ t then some (moveColumnCommit explodeField fields d t) else none
  | _, _ => none

/-- The `alignedTypes` array of `_renderGridHeaderCell`. -/
def alignedTypes : List String :=
  ["number", "duration", "integer"]

/-- The `maybeType` lookup of `_renderGridHeaderCell`:
`tableData && tableData.meta ? tableData.meta[getAggregateAlias(field.field)]
: undefined`. `tableMeta` is the optional metadata object (a map from
aggregate alias to type string, with `none` for absent keys) and `fieldAlias`
is the value of the external `getAggregateAlias` on the column's field. -/
def resolvedMetaType (tableMeta : Option (String → Option String))
    (fieldAlias : String) : Option String :=
  match tableMeta with
  | some meta => meta fieldAlias
  | none => none

/-- The alignment computation of `_renderGridHeaderCell` in `tableView.tsx`
(the `align` value passed to `SortLink`). `columnType` is `column.type`. -/
def renderGridHeaderCellAlign (columnType : String)
    (tableMeta : Option (String → Option String)) (fieldAlias : String) :
    String :=
  let align := if alignedTypes.contains columnType then "right" else "left"
  if columnType = "never" ∨ columnType = "*" then
    let maybeType := resolvedMetaType tableMeta fieldAlias
    if maybeType = some "integer" ∨ maybeType = some "number" then "right"
    else align
  else align

/-- The rendered body cell of `_renderGridBodyCell`: either the raw cell
value rendered verbatim (metadata absent), or renderer output wrapped in a
`BaseLink` with a drill-down target, or renderer output in a plain fragment.
`T` is the link-target type, `R` the renderer-output type, `V` the raw cell
value type. -/
inductive RenderedCell (T R V : Type) where
  | raw (v : Option V)
  | link (target : T) (content : R)
  | plain (content : R)
deriving Repr, DecidableEq

/-- The children-as-function body inside `_renderGridBodyCell`: both the
`willExpand` and the not-`willExpand` branch look up the field renderer with
`getFieldRenderer(String(column.key), tableData.meta)` and apply it to
`(dataRow, \x7borganization, location\x7d)`, exactly as the source writes the
same two lines in each branch. -/
def renderBodyCellChildren {Meta R V Org Loc : Type}
    (getFieldRenderer : String → Meta → ((String → Option V) → Org × Loc → R))
    (columnKey : String) (tableMeta : Meta) (dataRow : String → Option V)
    (organization : Org) (location : Loc) (willExpand : Bool) : R :=
  if willExpand = false then
    let fieldRenderer := getFieldRenderer columnKey tableMeta
    fieldRenderer dataRow (organization, location)
  else
    let fieldRenderer := getFieldRenderer columnKey tableMeta
    fieldRenderer dataRow (organization, location)

/-- `ExpandAggregateRow` from `tableView.tsx`: explodes the column's
`eventViewField`; when the aggregation is exactly `"count"` it wraps
`children true` in a link whose target pairs `location.pathname` with the
query-string object of the expanded descriptor, otherwise it returns
`children false` in a plain fragment. `explodeField`, `getExpandedResults`
and `generateQueryStringObject` are external collaborators passed as
parameters; `Path` is the type of `location.pathname`, `Q` of query-string
objects. -/
def ExpandAggregateRow {EV Q R V Path : Type}
    (explodeField : String → ExplodedField)
    (getExpandedResults : EV → (String → Option V) → EV)
    (generateQueryStringObject : EV → Q)
    (locationPathname : Path) (eventView : EV) (eventViewField : String)
    (dataRow : String → Option V) (children : Bool → R) :
    RenderedCell (Path × Q) R V :=
  let exploded := explodeField eventViewField
  if exploded.aggregation = "count" then
    let nextView := getExpandedResults eventView dataRow
    let target := (locationPathname, generateQueryStringObject nextView)
    RenderedCell.link target (children true)
  else
    RenderedCell.plain (children false)

/-- `_renderGridBodyCell` from `tableView.tsx`: with no metadata the raw
`dataRow[column.key]` is returned verbatim; with metadata the cell is
`ExpandAggregateRow` applied to the children function above. -/
def renderGridBodyCell {Meta EV Q R V Org Path : Type}
    (explodeField : String → ExplodedField)
    (getFieldRenderer : String → Meta → ((String → Option V) → Org × Path → R))
    (getExpandedResults : EV → (String → Option V) → EV)
    (generateQueryStringObject : EV → Q)
    (locationPathname : Path) (organization : Org) (eventView : EV)
    (columnKey : String) (eventViewField : String)
    (tableMeta : Option Meta) (dataRow : String → Option V) :
    RenderedCell (Path × Q) R V :=
  match tableMeta with
  | none => RenderedCell.raw (dataRow columnKey)
  | some meta =>
    ExpandAggregateRow explodeField getExpandedResults
      generateQueryStringObject locationPathname eventView eventViewField
      dataRow
      (fun willExpand =>
        renderBodyCellChildren getFieldRenderer columnKey meta dataRow
          organization locationPathname willExpand)

/-- The loop increment of `getRateLimitValues` in the rate-limit settings
page: `i += 1000` below 10000, `i += 10000` below 100000, else
`i += 100000`. -/
def rateLimitStep (i : Nat) : Nat :=
  if i < 10000 then 1000 else if i < 100000 then 10000 else 100000

/-- The `while (i <= 1000000)` loop of `getRateLimitValues`, unrolled as
recursion on the remaining distance to the bound. -/
def getRateLimitValuesAux (i : Nat) : List Nat :=
  if _h : i ≤ 1000000 then i :: getRateLimitValuesAux (i + rateLimitStep i)
  else []
termination_by 1000001 - i
decreasing_by
  have hstep : 1000 ≤ rateLimitStep i := by
    unfold rateLimitStep
    split
    · exact Nat.le_refl 1000
    · split
      · omega
      · omega
  omega

/-- `getRateLimitValues` from the rate-limit settings page: the slider step
table, starting from `i = 0`. -/
def getRateLimitValues : List Nat :=
  getRateLimitValuesAux 0

/-- The module-level constant `ACCOUNT_RATE_LIMIT_VALUES = getRateLimitValues()`,
computed once at module load. -/
def ACCOUNT_RATE_LIMIT_VALUES : List Nat :=
  getRateLimitValues

/-- Three-at-a-time comma grouping over a reversed digit list; helper for the
model of JS `Number.prototype.toLocaleString` (which the source relies on for
thousands separators). -/
def groupRev : List Char → List Char
  | a :: b :: c :: d :: rest => a :: b :: c :: ',' :: groupRev (d :: rest)
  | l => l

/-- Model of `value.toLocaleString()` as used by the account-limit label:
the decimal digits of `n` with a comma between every group of three. -/
def toLocaleStringModel (n : Nat) : String :=
  String.mk ((groupRev (toString n).toList.reverse).reverse)

/-- The `formatLabel` of the `accountRateLimit` `RangeField`:
`!value ? t('No Limit') : tct('[number] per hour', ...)`. A falsy slider
value (absent, or 0) renders `"No Limit"`; otherwise the localized value
followed by `" per hour"`. -/
def accountRateLimitFormatLabel (value : Option Nat) : String :=
  match value with
  | none => "No Limit"
  | some v => if v = 0 then "No Limit" else toLocaleStringModel v ++ " per hour"

/-- The `formatLabel` of the `projectRateLimit` `RangeField`:
`value !== 100` renders the percentage, and exactly 100 renders the
"No Limit" em-dash label (the source emits `No Limit &mdash; 100%`). -/
def projectRateLimitFormatLabel (value : Nat) : String :=
  if value ≠ 100 then toString value ++ "%" else "No Limit — 100%"

/-! Theorems. Two list helpers shared by several claims, then one theorem
per claim (with a witness instantiation when the theorem has hypotheses). -/

/-- Erasing at the index that was just modified in place gives the same list
as erasing from the unmodified list. -/
theorem eraseIdx_modify_same {α : Type} (f : α → α) :
    ∀ (i : Nat) (l : List α), (List.modify f i l).eraseIdx i = l.eraseIdx i
  | _, [] => by simp
  | 0, a :: t => by simp
  | n + 1, a :: t => by
    simp [List.modify_succ_cons, List.eraseIdx_cons_succ,
      eraseIdx_modify_same f n t]

/-- A list is a permutation of its element at any in-range index consed onto
the list with that index erased. -/
theorem perm_get_cons_eraseIdx {α : Type} :
    ∀ (l : List α) (i : Nat) (h : i < l.length),
      l.Perm (l.get ⟨i, h⟩ :: l.eraseIdx i)
  | [], _, h => by simp at h
  | _ :: _, 0, _ => by simp
  | a :: t, n + 1, h => by
    have hn : n < t.length := Nat.lt_of_succ_lt_succ h
    simp only [List.get_cons_succ, List.eraseIdx_cons_succ]
    exact ((perm_get_cons_eraseIdx t n hn).cons a).trans (List.Perm.swap _ _ _)

/-- C1: for any base column list and in-range source ≠ destination indices,
`generateColumnOrder` returns a list of the same length in which the element
originally at the source index now sits, flagged as dragging, at the
destination index; deleting the relocated element recovers the base list with
the source element deleted (so the relative order of all other elements is
preserved), and the result is a permutation of the base list with only the
source element flagged. -/
theorem generateColumnOrder_move_spec {α : Type} (l : List (TableColumn α))
    (init dest : Nat) (hi : init < l.length) (hd : dest < l.length)
    (hne : init ≠ dest) :
    (generateColumnOrder l (some init) (some dest)).length = l.length ∧
    (generateColumnOrder l (some init) (some dest))[dest]? =
      (l[init]?).map setDragging ∧
    (generateColumnOrder l (some init) (some dest)).eraseIdx dest =
      l.eraseIdx init ∧
    (generateColumnOrder l (some init) (some dest)).Perm
      (List.modify setDragging init l) := by
  have hdi : ¬ (dest = init) := fun h => hne h.symm
  have hx : l[init]? = some (l.get ⟨init, hi⟩) := by
    rw [List.getElem?_eq_getElem hi]
    simp
  have hlen1 : (l.eraseIdx init).length + 1 = l.length :=
    List.length_eraseIdx_add_one hi
  have hdle : dest ≤ (l.eraseIdx init).length := by omega
  have hmin : min dest (l.eraseIdx init).length = dest := Nat.min_eq_left hdle
  have hres : generateColumnOrder l (some init) (some dest) =
      List.modify setDragging dest
        ((l.eraseIdx init).insertIdx dest (l.get ⟨init, hi⟩)) := by
    simp only [generateColumnOrder, generateColumnOrderSt, spliceRemovedOne,
      spliceRemoveOne, spliceInsertAt, hx, hdi, if_false, hmin]
  have hmidget : ((l.eraseIdx init).insertIdx dest (l.get ⟨init, hi⟩))[dest]? =
      some (l.get ⟨init, hi⟩) := by
    have hlt : dest <
        ((l.eraseIdx init).insertIdx dest (l.get ⟨init, hi⟩)).length := by
      rw [List.length_insertIdx _ _ hdle]
      omega
    rw [List.getElem?_eq_getElem hlt]
    exact congrArg some (List.getElem_insertIdx_self _ _ _ hdle)
  have h1 : (generateColumnOrder l (some init) (some dest)).length = l.length := by
    rw [hres, List.length_modify, List.length_insertIdx _ _ hdle]
    omega
  have h2 : (generateColumnOrder l (some init) (some dest))[dest]? =
      (l[init]?).map setDragging := by
    rw [hres, List.getElem?_modify_eq, hmidget, hx]
    rfl
  have h3 : (generateColumnOrder l (some init) (some dest)).eraseIdx dest =
      l.eraseIdx init := by
    rw [hres, eraseIdx_modify_same, List.eraseIdx_insertIdx]
  refine ⟨h1, h2, h3, ?_⟩
  have hdlt : dest < (generateColumnOrder l (some init) (some dest)).length := by
    omega
  have hperm1 := perm_get_cons_eraseIdx _ dest hdlt
  have hget : (generateColumnOrder l (some init) (some dest)).get ⟨dest, hdlt⟩ =
      setDragging (l.get ⟨init, hi⟩) := by
    have := h2
    rw [List.getElem?_eq_getElem hdlt, hx] at this
    exact Option.some.inj this
  have hilt : init < (List.modify setDragging init l).length := by
    rw [List.length_modify]
    exact hi
  have hperm2 := perm_get_cons_eraseIdx _ init hilt
  have hget2 : (List.modify setDragging init l).get ⟨init, hilt⟩ =
      setDragging (l.get ⟨init, hi⟩) := by
    have h0 : (List.modify setDragging init l)[init]? =
        some (setDragging (l.get ⟨init, hi⟩)) := by
      rw [List.getElem?_modify_eq, hx]
      rfl
    rw [List.getElem?_eq_getElem hilt] at h0
    exact Option.some.inj h0
  have herase2 : (List.modify setDragging init l).eraseIdx init =
      l.eraseIdx init := eraseIdx_modify_same _ _ _
  rw [hget, h3] at hperm1
  rw [hget2, herase2] at hperm2
  exact hperm1.trans hperm2.symm

/-- Witness for C1: a three-column drag from index 0 to index 2, with every
conclusion evaluated on the concrete list. -/
theorem generateColumnOrder_move_spec_witness :
    (generateColumnOrder
        [TableColumn.mk 10 false, TableColumn.mk 11 false, TableColumn.mk 12 false]
        (some 0) (some 2)).length = 3 ∧
    (generateColumnOrder
        [TableColumn.mk 10 false, TableColumn.mk 11 false, TableColumn.mk 12 false]
        (some 0) (some 2))[2]? = some (TableColumn.mk 10 true) ∧
    (generateColumnOrder
        [TableColumn.mk 10 false, TableColumn.mk 11 false, TableColumn.mk 12 false]
        (some 0) (some 2)).eraseIdx 2 =
      [TableColumn.mk 11 false, TableColumn.mk 12 false] ∧
    (generateColumnOrder
        [TableColumn.mk 10 false, TableColumn.mk 11 false, TableColumn.mk 12 false]
        (some 0) (some 2)).Perm
      [TableColumn.mk 10 true, TableColumn.mk 11 false, TableColumn.mk 12 false] :=
  generateColumnOrder_move_spec
    [TableColumn.mk 10 false, TableColumn.mk 11 false, TableColumn.mk 12 false]
    0 2 (by decide) (by decide) (by decide)

/-- C2: the precomputed rate-limit step table is exactly the 29-element
strictly ascending sequence 0, 1000..9000, 10000..90000, 100000..1000000,
it starts at 0 and ends at exactly 1000000, and the module-level constant
`ACCOUNT_RATE_LIMIT_VALUES` is that one table computed at load. -/
theorem getRateLimitValues_spec :
    getRateLimitValues =
      [0, 1000, 2000, 3000, 4000, 5000, 6000, 7000, 8000, 9000,
       10000, 20000, 30000, 40000, 50000, 60000, 70000, 80000, 90000,
       100000, 200000, 300000, 400000, 500000, 600000, 700000, 800000, 900000,
       1000000] ∧
    ACCOUNT_RATE_LIMIT_VALUES = getRateLimitValues ∧
    List.Chain' (· < ·) getRateLimitValues ∧
    getRateLimitValues.head? = some 0 ∧
    getRateLimitValues.getLast? = some 1000000 := by
  have h : getRateLimitValues =
      [0, 1000, 2000, 3000, 4000, 5000, 6000, 7000, 8000, 9000,
       10000, 20000, 30000, 40000, 50000, 60000, 70000, 80000, 90000,
       100000, 200000, 300000, 400000, 500000, 600000, 700000, 800000, 900000,
       1000000] := by
    unfold getRateLimitValues
    simp [getRateLimitValuesAux, rateLimitStep]
  refine ⟨h, rfl, ?_, ?_, ?_⟩
  · rw [h]
    simp [List.chain'_cons]
  · rw [h]
    rfl
  · rw [h]
    rfl

/-- C5: `generateColumnOrder` returns the base order unchanged when either
index is absent; when both indices are present and equal it only flags the
element at that index as dragging, leaving the length and every other
element untouched. -/
theorem generateColumnOrder_noop_spec {α : Type} (l : List (TableColumn α))
    (j : Nat) (i d : Option Nat) :
    generateColumnOrder l none d = l ∧
    generateColumnOrder l i none = l ∧
    (generateColumnOrder l (some j) (some j)).length = l.length ∧
    (generateColumnOrder l (some j) (some j))[j]? = (l[j]?).map setDragging ∧
    ∀ k, k ≠ j → (generateColumnOrder l (some j) (some j))[k]? = l[k]? := by
  have hj : generateColumnOrder l (some j) (some j) =
      List.modify setDragging j l := by
    simp [generateColumnOrder, generateColumnOrderSt]
  refine ⟨?_, ?_, ?_, ?_, ?_⟩
  · cases d <;> rfl
  · cases i <;> rfl
  · rw [hj]
    simp [List.length_modify]
  · rw [hj]
    simp [List.getElem?_modify_eq, Option.map]
  · intro k hk
    rw [hj]
    simp [List.getElem?_modify_ne _ _ (Ne.symm hk)]

/-- Witness for C5: a two-column list with an equal-index drag at index 0 and
with absent indices, every conclusion evaluated concretely. -/
theorem generateColumnOrder_noop_spec_witness :
    generateColumnOrder [TableColumn.mk 1 false, TableColumn.mk 2 false]
      none (some 7) = [TableColumn.mk 1 false, TableColumn.mk 2 false] ∧
    generateColumnOrder [TableColumn.mk 1 false, TableColumn.mk 2 false]
      (some 5) none = [TableColumn.mk 1 false, TableColumn.mk 2 false] ∧
    (generateColumnOrder [TableColumn.mk 1 false, TableColumn.mk 2 false]
      (some 0) (some 0)).length = 2 ∧
    (generateColumnOrder [TableColumn.mk 1 false, TableColumn.mk 2 false]
      (some 0) (some 0))[0]? = some (TableColumn.mk 1 true) ∧
    (generateColumnOrder [TableColumn.mk 1 false, TableColumn.mk 2 false]
      (some 0) (some 0))[1]? = some (TableColumn.mk 2 false) := by
  have h := generateColumnOrder_noop_spec (α := Nat)
    [TableColumn.mk 1 false, TableColumn.mk 2 false] 0 (some 5) (some 7)
  exact ⟨h.1, h.2.1, h.2.2.1, h.2.2.2.1, h.2.2.2.2 1 (by decide)⟩

/-- C9: the children function of `_renderGridBodyCell` computes identical
content in the `willExpand` and not-`willExpand` branches: the same renderer
lookup applied to the same arguments, for every renderer registry, column
key, metadata, row, organization and location. -/
theorem renderBodyCellChildren_branches_agree {Meta R V Org Loc : Type}
    (getFieldRenderer : String → Meta → ((String → Option V) → Org × Loc → R))
    (columnKey : String) (tableMeta : Meta) (dataRow : String → Option V)
    (organization : Org) (location : Loc) :
    renderBodyCellChildren getFieldRenderer columnKey tableMeta dataRow
      organization location true =
    renderBodyCellChildren getFieldRenderer columnKey tableMeta dataRow
      organization location false := rfl

/-- C10: `generateColumnOrderSt` exposes the frame effect of the source: in
the equal-index case the array obtained from `eventView.getColumns()` is
written in place (the post-call state equals the returned, flagged array and
differs from the pre-call state whenever the flag was not already set),
whereas in the distinct-index case the source copies the array first and the
pre-call state survives unchanged. -/
theorem generateColumnOrder_mutates_base (l : List (TableColumn Nat))
    (i d : Nat) (hne : i ≠ d) :
    (generateColumnOrderSt l (some i) (some i)).2 =
      List.modify setDragging i l ∧
    (generateColumnOrderSt l (some i) (some i)).2 =
      (generateColumnOrderSt l (some i) (some i)).1 ∧
    (generateColumnOrderSt l (some i) (some d)).2 = l ∧
    (generateColumnOrderSt [TableColumn.mk 0 false] (some 0) (some 0)).2 ≠
      [TableColumn.mk 0 false] := by
  have hd : ¬ (d = i) := fun h => hne h.symm
  refine ⟨by simp [generateColumnOrderSt], by simp [generateColumnOrderSt],
    ?_, by decide⟩
  simp [generateColumnOrderSt, hd]

/-- Witness for C10: a singleton column list with distinct indices 0 and 1,
plus the concrete in-place mutation at equal index 0. -/
theorem generateColumnOrder_mutates_base_witness :
    (generateColumnOrderSt [TableColumn.mk 5 false] (some 0) (some 0)).2 =
      [TableColumn.mk 5 true] ∧
    (generateColumnOrderSt [TableColumn.mk 5 false] (some 0) (some 0)).2 =
      (generateColumnOrderSt [TableColumn.mk 5 false] (some 0) (some 0)).1 ∧
    (generateColumnOrderSt [TableColumn.mk 5 false] (some 0) (some 1)).2 =
      [TableColumn.mk 5 false] ∧
    (generateColumnOrderSt [TableColumn.mk 0 false] (some 0) (some 0)).2 ≠
      [TableColumn.mk 0 false] :=
  generateColumnOrder_mutates_base [TableColumn.mk 5 false] 0 1 (by decide)

/-- C3: the header-cell alignment is `"right"` exactly when the column's
value-type tag is one of number, duration, integer and `"left"` otherwise,
except that for the ambiguous tags `"never"` and `"*"` the alignment is
`"right"` iff the result metadata resolves the column's aggregate alias to
`"integer"` or `"number"`, and `"left"` otherwise, including when metadata
is absent. -/
theorem renderGridHeaderCellAlign_spec (ty fieldAlias : String)
    (meta : Option (String → Option String)) :
    (¬ (ty = "never" ∨ ty = "*") →
       ((renderGridHeaderCellAlign ty meta fieldAlias = "right" ↔
          ty ∈ alignedTypes) ∧
        (ty ∉ alignedTypes →
          renderGridHeaderCellAlign ty meta fieldAlias = "left"))) ∧
    ((ty = "never" ∨ ty = "*") →
       ((renderGridHeaderCellAlign ty meta fieldAlias = "right" ↔
          (resolvedMetaType meta fieldAlias = some "integer" ∨
           resolvedMetaType meta fieldAlias = some "number")) ∧
        (¬ (resolvedMetaType meta fieldAlias = some "integer" ∨
            resolvedMetaType meta fieldAlias = some "number") →
          renderGridHeaderCellAlign ty meta fieldAlias = "left"))) := by
  constructor
  · intro hty
    have hgen : renderGridHeaderCellAlign ty meta fieldAlias =
        if alignedTypes.contains ty then "right" else "left" := by
      simp only [renderGridHeaderCellAlign]
      rw [if_neg hty]
    by_cases hc : ty ∈ alignedTypes
    · have hcc : alignedTypes.contains ty = true := by
        simp [List.elem_eq_mem, hc]
      rw [hgen, hcc]
      simp [hc]
    · have hcc : alignedTypes.contains ty = false := by
        simp [List.elem_eq_mem, hc]
      rw [hgen, hcc]
      simp [hc]
  · intro hty
    have hcont : alignedTypes.contains ty = false := by
      rcases hty with h | h <;> subst h <;> decide
    have hgen : renderGridHeaderCellAlign ty meta fieldAlias =
        if (resolvedMetaType meta fieldAlias = some "integer" ∨
            resolvedMetaType meta fieldAlias = some "number")
        then "right" else "left" := by
      simp only [renderGridHeaderCellAlign]
      rw [if_pos hty, hcont]
      simp
    by_cases hm : resolvedMetaType meta fieldAlias = some "integer" ∨
        resolvedMetaType meta fieldAlias = some "number"
    · rw [hgen, if_pos hm]
      simp [hm]
    · rw [hgen, if_neg hm]
      simp [hm]

/-- Witness for C3: a `"never"` column right-aligned through metadata and
left-aligned without it, a `"duration"` column right-aligned, a `"string"`
column left-aligned. -/
theorem renderGridHeaderCellAlign_spec_witness :
    renderGridHeaderCellAlign "never" (some (fun _ => some "integer"))
      "alias_a" = "right" ∧
    renderGridHeaderCellAlign "never" none "alias_a" = "left" ∧
    renderGridHeaderCellAlign "duration" none "alias_a" = "right" ∧
    renderGridHeaderCellAlign "string" none "alias_a" = "left" := by
  refine ⟨?_, ?_, ?_, ?_⟩
  · exact ((renderGridHeaderCellAlign_spec "never" "alias_a"
      (some (fun _ => some "integer"))).2 (Or.inl rfl)).1.mpr (Or.inl rfl)
  · exact ((renderGridHeaderCellAlign_spec "never" "alias_a" none).2
      (Or.inl rfl)).2 (by simp [resolvedMetaType])
  · exact ((renderGridHeaderCellAlign_spec "duration" "alias_a" none).1
      (by simp)).1.mpr (by simp [alignedTypes])
  · exact ((renderGridHeaderCellAlign_spec "string" "alias_a" none).1
      (by simp)).2 (by simp [alignedTypes])

/-- C4: `_updateColumn` emits its telemetry event only when the updated
descriptor differs from the original, and the event's `changed` list contains
`"aggregate"` iff the aggregation components differ, `"field"` iff the field
components differ and `"width"` iff the width components differ, each decided
independently. -/
theorem updateColumn_telemetry_spec {EV : Type} [DecidableEq EV]
    (eventView nextEventView : EV) (prevField nextField : ExplodedField)
    (columnIndex : Nat) :
    ((updateColumnEvent eventView nextEventView prevField nextField
        columnIndex).isSome ↔ nextEventView ≠ eventView) ∧
    ∀ e, updateColumnEvent eventView nextEventView prevField nextField
        columnIndex = some e →
      (("aggregate" ∈ e.changed ↔ prevField.aggregation ≠ nextField.aggregation) ∧
       ("field" ∈ e.changed ↔ prevField.field ≠ nextField.field) ∧
       ("width" ∈ e.changed ↔ prevField.width ≠ nextField.width)) := by
  constructor
  · by_cases h : nextEventView = eventView <;> simp [updateColumnEvent, h]
  · intro e he
    unfold updateColumnEvent at he
    by_cases h : nextEventView ≠ eventView
    · rw [if_pos h] at he
      injection he with he2
      subst he2
      simp only [updateColumnChanged]
      by_cases h1 : prevField.aggregation = nextField.aggregation <;>
        by_cases h2 : prevField.field = nextField.field <;>
        by_cases h3 : prevField.width = nextField.width <;>
        simp [h1, h2, h3]
    · rw [if_neg h] at he
      exact Option.noConfusion he

/-- Witness for C4: an update that changes aggregation and width but not the
field, on distinct descriptors, with the emitted list evaluated. -/
theorem updateColumn_telemetry_spec_witness :
    ((updateColumnEvent (0 : Nat) 1 (ExplodedField.mk "count" "id" (-1))
       (ExplodedField.mk "avg" "id" 300) 2).isSome ↔ (1 : Nat) ≠ 0) ∧
    updateColumnEvent (0 : Nat) 1 (ExplodedField.mk "count" "id" (-1))
      (ExplodedField.mk "avg" "id" 300) 2 =
      some (UpdateColumnEvent.mk 2 ["aggregate", "width"]) ∧
    ("aggregate" ∈ ["aggregate", "width"] ↔ ("count" : String) ≠ "avg") ∧
    ("field" ∈ ["aggregate", "width"] ↔ ("id" : String) ≠ "id") ∧
    ("width" ∈ ["aggregate", "width"] ↔ (-1 : Int) ≠ 300) := by
  have h := updateColumn_telemetry_spec (0 : Nat) 1
    (ExplodedField.mk "count" "id" (-1)) (ExplodedField.mk "avg" "id" 300) 2
  have he : updateColumnEvent (0 : Nat) 1 (ExplodedField.mk "count" "id" (-1))
      (ExplodedField.mk "avg" "id" 300) 2 =
      some (UpdateColumnEvent.mk 2 ["aggregate", "width"]) := by rfl
  exact ⟨h.1, he, (h.2 _ he).1, (h.2 _ he).2.1, (h.2 _ he).2.2⟩

/-- C6: a completed drag invokes the move commit (whose event carries the
from/to indices and the moved column's exploded aggregation and field) iff
both indices are numbers and they differ; same-index drags and drags with an
absent index produce no event and no descriptor change. -/
theorem onDragDone_spec (ef : String → ExplodedField) (fields : List String)
    (di ti : Option Nat) :
    ((onDragDone ef fields di ti).isSome ↔
       ∃ d t, di = some d ∧ ti = some t ∧ d ≠ t) ∧
    (∀ d t, di = some d → ti = some t → d ≠ t →
       onDragDone ef fields di ti =
         some { from_index := d, to_index := t,
                aggregation := (ef (fields.getD d "")).aggregation,
                field := (ef (fields.getD d "")).field }) ∧
    (∀ j, onDragDone ef fields (some j) (some j) = none) ∧
    onDragDone ef fields none ti = none ∧
    onDragDone ef fields di none = none := by
  refine ⟨?_, ?_, ?_, ?_, ?_⟩
  · cases di with
    | none => simp [onDragDone]
    | some d =>
      cases ti with
      | none => simp [onDragDone]
      | some t =>
        by_cases h : d = t
        · subst h
          simp [onDragDone]
        · simp [onDragDone, h, moveColumnCommit]
  · intro d t hd ht hne
    subst hd
    subst ht
    simp [onDragDone, hne, moveColumnCommit]
  · intro j
    simp [onDragDone]
  · simp [onDragDone]
  · cases di <;> rfl

/-- Witness for C6: a drag from index 0 to index 1 over two fields emits the
move event; same-index and absent-index drags emit nothing. -/
theorem onDragDone_spec_witness :
    onDragDone (fun s => ExplodedField.mk s s 0) ["f0", "f1"]
      (some 0) (some 1) = some (MoveColumnEvent.mk 0 1 "f0" "f0") ∧
    onDragDone (fun s => ExplodedField.mk s s 0) ["f0", "f1"]
      (some 1) (some 1) = none ∧
    onDragDone (fun s => ExplodedField.mk s s 0) ["f0", "f1"]
      none (some 1) = none ∧
    onDragDone (fun s => ExplodedField.mk s s 0) ["f0", "f1"]
      (some 0) none = none := by
  have h := onDragDone_spec (fun s => ExplodedField.mk s s 0) ["f0", "f1"]
    (some 0) (some 1)
  exact ⟨h.2.1 0 1 rfl rfl (by decide),
    (onDragDone_spec (fun s => ExplodedField.mk s s 0) ["f0", "f1"]
      (some 1) (some 1)).2.2.1 1,
    h.2.2.2.1, h.2.2.2.2⟩

/-- C7: `_renderGridBodyCell` returns the raw cell value verbatim when
metadata is absent; with metadata it applies the field renderer to the row
and context, wrapping the result in a link to the drill-down target (the
location pathname paired with the query string of the expanded descriptor)
iff the column's exploded aggregation is exactly `"count"`, and returning it
as plain content otherwise. -/
theorem renderGridBodyCell_spec {Meta EV Q R V Org Path : Type}
    (explodeField : String → ExplodedField)
    (getFieldRenderer : String → Meta → ((String → Option V) → Org × Path → R))
    (getExpandedResults : EV → (String → Option V) → EV)
    (generateQueryStringObject : EV → Q)
    (locationPathname : Path) (organization : Org) (eventView : EV)
    (columnKey eventViewField : String) (tableMeta : Option Meta)
    (dataRow : String → Option V) :
    (tableMeta = none →
      renderGridBodyCell explodeField getFieldRenderer getExpandedResults
        generateQueryStringObject locationPathname organization eventView
        columnKey eventViewField tableMeta dataRow =
      RenderedCell.raw (dataRow columnKey)) ∧
    (∀ meta, tableMeta = some meta →
      ((explodeField eventViewField).aggregation = "count" →
        renderGridBodyCell explodeField getFieldRenderer getExpandedResults
          generateQueryStringObject locationPathname organization eventView
          columnKey eventViewField tableMeta dataRow =
        RenderedCell.link
          (locationPathname,
           generateQueryStringObject (getExpandedResults eventView dataRow))
          (getFieldRenderer columnKey meta dataRow
            (organization, locationPathname))) ∧
      ((explodeField eventViewField).aggregation ≠ "count" →
        renderGridBodyCell explodeField getFieldRenderer getExpandedResults
          generateQueryStringObject locationPathname organization eventView
          columnKey eventViewField tableMeta dataRow =
        RenderedCell.plain
          (getFieldRenderer columnKey meta dataRow
            (organization, locationPathname)))) ∧
    ((∃ t c, renderGridBodyCell explodeField getFieldRenderer
        getExpandedResults generateQueryStringObject locationPathname
        organization eventView columnKey eventViewField tableMeta dataRow =
        RenderedCell.link t c) ↔
      (tableMeta.isSome ∧ (explodeField eventViewField).aggregation = "count")) := by
  refine ⟨?_, ?_, ?_⟩
  · intro h
    subst h
    rfl
  · intro meta hm
    subst hm
    constructor
    · intro hc
      simp [renderGridBodyCell, ExpandAggregateRow, renderBodyCellChildren, hc]
    · intro hc
      simp [renderGridBodyCell, ExpandAggregateRow, renderBodyCellChildren, hc]
  · cases tableMeta with
    | none =>
      simp [renderGridBodyCell]
    | some meta =>
      by_cases hc : (explodeField eventViewField).aggregation = "count"
      · simp [renderGridBodyCell, ExpandAggregateRow, renderBodyCellChildren, hc]
      · simp [renderGridBodyCell, ExpandAggregateRow, renderBodyCellChildren, hc]

/-- Witness for C7: with numeric stand-ins for the opaque types, a `"count"`
column renders as a link to the expanded target, an `"avg"` column renders
as plain content, and a missing-metadata cell renders the raw value. -/
theorem renderGridBodyCell_spec_witness :
    renderGridBodyCell (fun s => ExplodedField.mk s s 0)
      ((fun _ _ _ _ => 7) :
        String → Nat → ((String → Option Nat) → Nat × Nat → Nat))
      ((fun ev _ => ev + 1) : Nat → (String → Option Nat) → Nat)
      ((fun ev => ev * 10) : Nat → Nat) (3 : Nat) (4 : Nat) (5 : Nat)
      "k" "count" (some 0) (fun _ => some 9) =
      RenderedCell.link (3, 60) 7 ∧
    renderGridBodyCell (fun s => ExplodedField.mk s s 0)
      ((fun _ _ _ _ => 7) :
        String → Nat → ((String → Option Nat) → Nat × Nat → Nat))
      ((fun ev _ => ev + 1) : Nat → (String → Option Nat) → Nat)
      ((fun ev => ev * 10) : Nat → Nat) (3 : Nat) (4 : Nat) (5 : Nat)
      "k" "avg" (some 0) (fun _ => some 9) =
      RenderedCell.plain 7 ∧
    renderGridBodyCell (fun s => ExplodedField.mk s s 0)
      ((fun _ _ _ _ => 7) :
        String → Nat → ((String → Option Nat) → Nat × Nat → Nat))
      ((fun ev _ => ev + 1) : Nat → (String → Option Nat) → Nat)
      ((fun ev => ev * 10) : Nat → Nat) (3 : Nat) (4 : Nat) (5 : Nat)
      "k" "count" none (fun _ => some 9) =
      RenderedCell.raw (some 9) := by
  refine ⟨?_, ?_, ?_⟩
  · exact ((renderGridBodyCell_spec (fun s => ExplodedField.mk s s 0)
      ((fun _ _ _ _ => 7) :
        String → Nat → ((String → Option Nat) → Nat × Nat → Nat))
      ((fun ev _ => ev + 1) : Nat → (String → Option Nat) → Nat)
      ((fun ev => ev * 10) : Nat → Nat) (3 : Nat) (4 : Nat) (5 : Nat)
      "k" "count" (some 0) (fun _ => some 9)).2.1 0 rfl).1 rfl
  · exact ((renderGridBodyCell_spec (fun s => ExplodedField.mk s s 0)
      ((fun _ _ _ _ => 7) :
        String → Nat → ((String → Option Nat) → Nat × Nat → Nat))
      ((fun ev _ => ev + 1) : Nat → (String → Option Nat) → Nat)
      ((fun ev => ev * 10) : Nat → Nat) (3 : Nat) (4 : Nat) (5 : Nat)
      "k" "avg" (some 0) (fun _ => some 9)).2.1 0 rfl).2 (by decide)
  · exact (renderGridBodyCell_spec (fun s => ExplodedField.mk s s 0)
      ((fun _ _ _ _ => 7) :
        String → Nat → ((String → Option Nat) → Nat × Nat → Nat))
      ((fun ev _ => ev + 1) : Nat → (String → Option Nat) → Nat)
      ((fun ev => ev * 10) : Nat → Nat) (3 : Nat) (4 : Nat) (5 : Nat)
      "k" "count" none (fun _ => some 9)).1 rfl

/-- C8: the account-limit label is "No Limit" for a falsy value (absent or
zero) and otherwise the thousands-separated value followed by " per hour";
the project-limit label is the em-dash "No Limit — 100%" exactly at 100 and
otherwise the bare percentage, so 75 renders exactly "75%". -/
theorem formatLabel_spec (v w : Nat) (hv : v ≠ 0) (hw : w ≠ 100) :
    accountRateLimitFormatLabel none = "No Limit" ∧
    accountRateLimitFormatLabel (some 0) = "No Limit" ∧
    accountRateLimitFormatLabel (some v) = toLocaleStringModel v ++ " per hour" ∧
    accountRateLimitFormatLabel (some 1234567) = "1,234,567 per hour" ∧
    projectRateLimitFormatLabel 100 = "No Limit — 100%" ∧
    projectRateLimitFormatLabel w = toString w ++ "%" ∧
    projectRateLimitFormatLabel 75 = "75%" := by
  refine ⟨rfl, rfl, ?_, rfl, rfl, ?_, rfl⟩
  · simp [accountRateLimitFormatLabel, hv]
  · simp [projectRateLimitFormatLabel, hw]

/-- Witness for C8: the non-zero account value 500 and non-100 project value
75, with every label evaluated. -/
theorem formatLabel_spec_witness :
    accountRateLimitFormatLabel none = "No Limit" ∧
    accountRateLimitFormatLabel (some 0) = "No Limit" ∧
    accountRateLimitFormatLabel (some 500) =
      toLocaleStringModel 500 ++ " per hour" ∧
    accountRateLimitFormatLabel (some 1234567) = "1,234,567 per hour" ∧
    projectRateLimitFormatLabel 100 = "No Limit — 100%" ∧
    projectRateLimitFormatLabel 75 = toString 75 ++ "%" ∧
    projectRateLimitFormatLabel 75 = "75%" :=
  formatLabel_spec 500 75 (by decide) (by decide)
